import Mathlib

/-
Verification of the seat-lock coordination engine of `src/server.js`
(gravit_server).  The socket.io handlers `joinEvent`, `lockSeat`,
`unlockSeat` and the expiry sweeper mutate a process-global nested object

  lockedSeats : eventId -> seatIndex -> { userId, timestamp }

with a fixed TTL `LOCK_EXPIRY_TIME = 5 * 60 * 1000` milliseconds.

We embed the handlers shallowly:
- JavaScript objects become association lists with string keys
  (`getKey` / `setKey` / `removeKey` mirror property read / assignment /
  `delete`);
- the JavaScript values that can arrive in a socket payload are modelled
  by `JsVal` (`undefined`, strings, integer numbers), with the truthiness
  test `JsVal.truthy` and strict-equality as structural equality on
  `JsVal`;
- each handler is a pure function from the table and the request to the
  new table together with the list of messages it emits; unicast
  (`socket.emit`) and broadcast (`io.to(topic).emit`) messages are kept
  apart by the `Msg` constructors.
-/

set_option autoImplicit false

namespace GravitServer

/-- Model of the JavaScript values a socket payload field can carry:
`undefined` (a missing destructured field), a string, or an integer
number.  Structural equality on `JsVal` models JavaScript strict
equality `===` on these values (values of different types are never
strictly equal). -/
inductive JsVal where
  | undef
  | str (s : String)
  | num (n : Int)
deriving DecidableEq, Repr

/-- JavaScript truthiness of a `JsVal`: `undefined` is falsy, a string is
truthy iff nonempty, a number is truthy iff nonzero.  Mirrors the `!x`
tests in the handlers. -/
def JsVal.truthy : JsVal → Bool
  | .undef => false
  | .str s => !(s == "")
  | .num n => !(n == 0)

/-- Property-key coercion: using a `JsVal` as an object key coerces it to
a string, exactly as JavaScript does (`obj[undefined]` reads key
`"undefined"`, `obj[0]` reads key `"0"`). -/
def JsVal.toKey : JsVal → String
  | .undef => "undefined"
  | .str s => s
  | .num n => toString n

/-- Property read `obj[k]` on an object modelled as an association
list. -/
def getKey {α : Type} (k : String) : List (String × α) → Option α
  | [] => none
  | (k', v) :: rest => if k' = k then some v else getKey k rest

/-- Property assignment `obj[k] = v`: replace the value at `k` if the key
is present, otherwise append the new entry. -/
def setKey {α : Type} (k : String) (v : α) : List (String × α) → List (String × α)
  | [] => [(k, v)]
  | (k', v') :: rest => if k' = k then (k, v) :: rest else (k', v') :: setKey k v rest

/-- Property deletion `delete obj[k]`: drop every entry stored under key
`k` (a JavaScript object holds each key at most once). -/
def removeKey {α : Type} (k : String) (l : List (String × α)) : List (String × α) :=
  l.filter (fun p => !(p.1 == k))

/-- One seat's lock record `{ userId, timestamp }` as stored in
`lockedSeats[eventId][seatIndex]`. -/
structure SeatLock where
  userId : JsVal
  timestamp : Int
deriving DecidableEq, Repr

/-- The per-event object `lockedSeats[eventId]`, mapping seat-index keys
to lock records. -/
abbrev EventLocks := List (String × SeatLock)

/-- The process-global `lockedSeats` object, mapping event-id keys to
per-event lock objects. -/
abbrev LockTable := List (String × EventLocks)

/-- `LOCK_EXPIRY_TIME = 5 * 60 * 1000` (milliseconds). -/
def LOCK_EXPIRY_TIME : Int := 5 * 60 * 1000

/-- Topic string `event-${eventId}` used to scope broadcasts. -/
def topic (eventKey : String) : String := "event-" ++ eventKey

/-- Messages a handler can emit.  `lockedSeatsUnicast` and
`seatLockFailedUnicast` go to the requesting socket only
(`socket.emit`); `seatLockedBroadcast` and `seatUnlockedBroadcast` go to
every subscriber of the named topic (`io.to(topic).emit`); `diagnostic`
models a `console.error` record. -/
inductive Msg where
  | lockedSeatsUnicast (locks : List (String × JsVal))
  | seatLockFailedUnicast (seatIndex : JsVal) (reason : String)
  | seatLockedBroadcast (top : String) (seatIndex : JsVal) (userId : JsVal)
  | seatUnlockedBroadcast (top : String) (seatIndex : JsVal)
  | diagnostic (tag : String)
deriving DecidableEq, Repr

/-- Whether a message is a broadcast to a topic (as opposed to a unicast
reply to the requester or a log record). -/
def Msg.isBroadcast : Msg → Bool
  | .seatLockedBroadcast _ _ _ => true
  | .seatUnlockedBroadcast _ _ => true
  | _ => false

/-- Outcome of a `lockSeat` request, as the spec's
`Result{granted | denied(reason)}`.  In the code a denial is the
`seatLockFailed` unicast and a grant is the absence of one. -/
inductive LockResult where
  | granted
  | denied (reason : String)
deriving DecidableEq, Repr

/-- The active-lock snapshot computed by the `joinEvent` handler: every
seat of the event whose lock satisfies
`now - lock.timestamp <= LOCK_EXPIRY_TIME`, mapped to its `userId`. -/
def snapshotActive (tbl : LockTable) (eventId : JsVal) (now : Int) :
    List (String × JsVal) :=
  match getKey eventId.toKey tbl with
  | none => []
  | some ev =>
      (ev.filter (fun p => decide (now - p.2.timestamp ≤ LOCK_EXPIRY_TIME))).map
        (fun p => (p.1, p.2.userId))

/-- The `joinEvent` handler.  The whole body is wrapped in
`try { socket.join(...); ...; socket.emit('lockedSeats', activeLocks) }
catch (error) { console.error('joinEvent Error:', error) }`.
The `raise` flag models a runtime fault thrown inside the `try` block
before the reply is emitted (e.g. `socket.join` failing): the `catch`
records a diagnostic and emits nothing.  On the normal path the handler
emits the active snapshot and never writes the table. -/
def joinEvent (tbl : LockTable) (eventId : JsVal) (now : Int) (raise : Bool) :
    LockTable × List Msg :=
  if raise then
    (tbl, [Msg.diagnostic "joinEvent Error"])
  else
    (tbl, [Msg.lockedSeatsUnicast (snapshotActive tbl eventId now)])

/-- The `lockSeat` handler.  Control flow mirrors the source:
validation `!eventId || seatIndex === undefined || !userId` first; then
`if (!lockedSeats[eventId]) lockedSeats[eventId] = {}`; then the
existing lock is active iff `now - timestamp <= LOCK_EXPIRY_TIME`;
an active lock by someone else denies, an active lock by the same user
is silently renewed, and otherwise a fresh record is stored and
`seatLocked` is broadcast. -/
def lockSeat (tbl : LockTable) (eventId seatIndex userId : JsVal) (now : Int) :
    LockTable × LockResult × List Msg :=
  if !eventId.truthy || seatIndex == JsVal.undef || !userId.truthy then
    (tbl, LockResult.denied "Invalid lock request",
      [Msg.seatLockFailedUnicast seatIndex "Invalid lock request"])
  else
    let ek := eventId.toKey
    let sk := seatIndex.toKey
    let tbl1 := match getKey ek tbl with
      | none => setKey ek [] tbl
      | some _ => tbl
    let ev := (getKey ek tbl1).getD []
    let acquire : LockTable × LockResult × List Msg :=
      (setKey ek (setKey sk ⟨userId, now⟩ ev) tbl1, LockResult.granted,
        [Msg.seatLockedBroadcast (topic ek) seatIndex userId])
    match getKey sk ev with
    | some existingLock =>
        if now - existingLock.timestamp ≤ LOCK_EXPIRY_TIME then
          if existingLock.userId ≠ userId then
            (tbl1, LockResult.denied "Seat already locked",
              [Msg.seatLockFailedUnicast seatIndex "Seat already locked"])
          else
            (setKey ek (setKey sk ⟨existingLock.userId, now⟩ ev) tbl1,
              LockResult.granted, [])
        else acquire
    | none => acquire

/-- The `unlockSeat` handler.  If an entry exists at
`lockedSeats[eventId][seatIndex]`, it is deleted and `seatUnlocked`
broadcast exactly when `!userId`, or the stored `userId` strictly equals
the caller's, or the lock has expired; otherwise (and when no entry
exists) nothing happens. -/
def unlockSeat (tbl : LockTable) (eventId seatIndex userId : JsVal) (now : Int) :
    LockTable × List Msg :=
  let ek := eventId.toKey
  let sk := seatIndex.toKey
  match getKey ek tbl with
  | none => (tbl, [])
  | some ev =>
      match getKey sk ev with
      | none => (tbl, [])
      | some lock =>
          if !userId.truthy || lock.userId == userId
              || decide (now - lock.timestamp > LOCK_EXPIRY_TIME) then
            (setKey ek (removeKey sk ev) tbl,
              [Msg.seatUnlockedBroadcast (topic ek) seatIndex])
          else (tbl, [])

/-- One per-event pass of the expiry sweeper: keep exactly the locks
with `now - lock.timestamp <= LOCK_EXPIRY_TIME` (the others are
`delete`d). -/
def sweepEvent (now : Int) (ev : EventLocks) : EventLocks :=
  ev.filter (fun p => !decide (now - p.2.timestamp > LOCK_EXPIRY_TIME))

/-- The broadcasts of one per-event pass of the sweeper: one
`seatUnlocked` to the event's topic per deleted seat key (`Object.keys`
yields string keys). -/
def sweepEventMsgs (now : Int) (ek : String) (ev : EventLocks) : List Msg :=
  (ev.filter (fun p => decide (now - p.2.timestamp > LOCK_EXPIRY_TIME))).map
    (fun p => Msg.seatUnlockedBroadcast (topic ek) (JsVal.str p.1))

/-- One tick of the `setInterval` expiry sweeper: every event's object
is swept in place (the event key itself is never removed), and the
deletions' broadcasts are emitted. -/
def sweep (tbl : LockTable) (now : Int) : LockTable × List Msg :=
  (tbl.map (fun e => (e.1, sweepEvent now e.2)),
   (tbl.map (fun e => sweepEventMsgs now e.1 e.2)).flatten)

/-- Well-formedness every JavaScript object state satisfies: the event
keys are pairwise distinct and so are the seat keys inside each
event. -/
def TableWF (tbl : LockTable) : Prop :=
  (tbl.map Prod.fst).Nodup ∧ ∀ p ∈ tbl, (p.2.map Prod.fst).Nodup

instance : DecidablePred TableWF := fun tbl => by
  unfold TableWF
  infer_instance

/-! Basic lemmas about the object-model primitives. -/

theorem getKey_setKey_self {α : Type} (k : String) (v : α) :
    ∀ l : List (String × α), getKey k (setKey k v l) = some v
  | [] => by simp [getKey, setKey]
  | (k', v') :: rest => by
      by_cases h : k' = k
      · simp [setKey, getKey, h]
      · simp [setKey, getKey, h, getKey_setKey_self k v rest]

theorem getKey_setKey_ne {α : Type} (k k2 : String) (v : α) (h : k2 ≠ k) :
    ∀ l : List (String × α), getKey k2 (setKey k v l) = getKey k2 l
  | [] => by
      simp only [setKey, getKey, if_neg (Ne.symm h)]
  | (k', v') :: rest => by
      by_cases hk : k' = k
      · subst hk
        simp only [setKey, if_pos rfl, getKey, if_neg (Ne.symm h)]
      · simp only [setKey, if_neg hk, getKey]
        by_cases hk2 : k' = k2
        · simp only [if_pos hk2]
        · simp only [if_neg hk2, getKey_setKey_ne k k2 v h rest]

theorem setKey_eq_of_getKey {α : Type} (k : String) (v : α) :
    ∀ l : List (String × α), getKey k l = some v → setKey k v l = l
  | [] => by simp [getKey]
  | (k', v') :: rest => by
      intro h
      by_cases hk : k' = k
      · subst hk
        rw [getKey, if_pos rfl, Option.some.injEq] at h
        rw [setKey, if_pos rfl, h]
      · rw [getKey, if_neg hk] at h
        rw [setKey, if_neg hk, setKey_eq_of_getKey k v rest h]

theorem getKey_removeKey_self {α : Type} (k : String) :
    ∀ l : List (String × α), getKey k (removeKey k l) = none
  | [] => by simp [getKey, removeKey]
  | (k', v') :: rest => by
      by_cases h : k' = k
      · have hb : ((k', v').1 == k) = true := by simp [h]
        simpa [removeKey, List.filter_cons, hb] using getKey_removeKey_self k rest
      · have hb : ((k', v').1 == k) = false := by simp [h]
        have ih := getKey_removeKey_self k rest
        simpa [removeKey, List.filter_cons, hb, getKey, h] using ih

theorem getKey_eq_none_of_not_mem {α : Type} (k : String) :
    ∀ l : List (String × α), k ∉ l.map Prod.fst → getKey k l = none
  | [] => by simp [getKey]
  | (k', v') :: rest => by
      intro h
      simp only [List.map_cons, List.mem_cons] at h
      push_neg at h
      rw [getKey, if_neg (Ne.symm h.1), getKey_eq_none_of_not_mem k rest h.2]

theorem mem_of_getKey {α : Type} (k : String) (v : α) :
    ∀ l : List (String × α), getKey k l = some v → (k, v) ∈ l
  | [] => by simp [getKey]
  | (k', v') :: rest => by
      intro h
      by_cases hk : k' = k
      · subst hk
        rw [getKey, if_pos rfl, Option.some.injEq] at h
        rw [h]
        exact List.mem_cons_self _ _
      · rw [getKey, if_neg hk] at h
        exact List.mem_cons_of_mem _ (mem_of_getKey k v rest h)

theorem getKey_filter_none {α : Type} (P : String × α → Bool) (k : String) :
    ∀ l : List (String × α), getKey k l = none → getKey k (l.filter P) = none
  | [] => by simp [getKey]
  | (k', v') :: rest => by
      intro h
      by_cases hk : k' = k
      · rw [getKey, if_pos hk] at h
        exact absurd h (by simp)
      · rw [getKey, if_neg hk] at h
        by_cases hp : P (k', v')
        · rw [List.filter_cons, if_pos hp, getKey, if_neg hk]
          exact getKey_filter_none P k rest h
        · rw [List.filter_cons, if_neg hp]
          exact getKey_filter_none P k rest h

theorem getKey_filter_some {α : Type} (P : String × α → Bool) (k : String) (v : α) :
    ∀ l : List (String × α), (l.map Prod.fst).Nodup → getKey k l = some v →
      getKey k (l.filter P) = if P (k, v) then some v else none
  | [] => by simp [getKey]
  | (k', v') :: rest => by
      intro hnd h
      simp only [List.map_cons, List.nodup_cons] at hnd
      by_cases hk : k' = k
      · subst hk
        rw [getKey, if_pos rfl, Option.some.injEq] at h
        subst h
        by_cases hp : P (k', v')
        · rw [List.filter_cons, if_pos hp, getKey, if_pos rfl, if_pos hp]
        · rw [List.filter_cons, if_neg hp, if_neg hp]
          exact getKey_filter_none P k' rest
            (getKey_eq_none_of_not_mem k' rest hnd.1)
      · rw [getKey, if_neg hk] at h
        by_cases hp : P (k', v')
        · rw [List.filter_cons, if_pos hp, getKey, if_neg hk]
          exact getKey_filter_some P k v rest hnd.2 h
        · rw [List.filter_cons, if_neg hp]
          exact getKey_filter_some P k v rest hnd.2 h

theorem getKey_map_snd {α β : Type} (f : α → β) (k : String) :
    ∀ l : List (String × α),
      getKey k (l.map (fun p => (p.1, f p.2))) = (getKey k l).map f
  | [] => by simp [getKey]
  | (k', v') :: rest => by
      by_cases hk : k' = k
      · simp [getKey, hk]
      · simp [getKey, hk, getKey_map_snd f k rest]

theorem topic_inj {a b : String} (h : topic a = topic b) : a = b := by
  unfold topic at h
  have h2 := congrArg String.data h
  simp only [String.data_append] at h2
  exact String.ext (List.append_cancel_left h2)

/-- Claim C1: if a seat holds an active lock (now - acquiredAt within
`LOCK_EXPIRY_TIME`) by claimant `x`, then a `lockSeat` call by any valid
claimant `y ≠ x` at the same instant is denied with reason
"Seat already locked" as a unicast to the requester, leaves the lock
table unchanged, and emits no broadcast. -/
theorem lockSeat_active_conflict_denied (tbl : LockTable) (ev : EventLocks)
    (e sk : String) (x y : JsVal) (T now : Int)
    (he : e ≠ "") (hy : y.truthy = true) (hxy : x ≠ y)
    (hev : getKey e tbl = some ev) (hsk : getKey sk ev = some ⟨x, T⟩)
    (hact : now - T ≤ LOCK_EXPIRY_TIME) :
    lockSeat tbl (JsVal.str e) (JsVal.str sk) y now
      = (tbl, LockResult.denied "Seat already locked",
          [Msg.seatLockFailedUnicast (JsVal.str sk) "Seat already locked"]) := by
  have htr : (JsVal.str e).truthy = true := by simp [JsVal.truthy, he]
  have hsu : ((JsVal.str sk) == JsVal.undef) = false := rfl
  have hact2 : now ≤ LOCK_EXPIRY_TIME + T := by omega
  simp [lockSeat, JsVal.toKey, htr, hy, hsu, hev, hsk, hxy, hact2]

/-- Closed instance of C1: claimant "B" is denied on the seat "3" of
event "E1" actively held by "A". -/
theorem lockSeat_active_conflict_denied_witness :
    lockSeat [("E1", [("3", ⟨JsVal.str "A", 0⟩)])]
        (JsVal.str "E1") (JsVal.str "3") (JsVal.str "B") 60000
      = ([("E1", [("3", ⟨JsVal.str "A", 0⟩)])],
          LockResult.denied "Seat already locked",
          [Msg.seatLockFailedUnicast (JsVal.str "3") "Seat already locked"]) :=
  lockSeat_active_conflict_denied [("E1", [("3", ⟨JsVal.str "A", 0⟩)])]
    [("3", ⟨JsVal.str "A", 0⟩)] "E1" "3" (JsVal.str "A") (JsVal.str "B") 0 60000
    (by decide) (by decide) (by decide) (by decide) (by decide) (by decide)

/-- Claim C5 counterexample: a `lockSeat` request with a nonempty
`eventId` and `claimantId` but `seatIndex` equal to the empty string is
NOT denied as "Invalid lock request" — it is granted and the lock table
changes (the validation `seatIndex === undefined` lets the empty string
through). -/
theorem lockSeat_empty_seatIndex_counterexample :
    (lockSeat [] (JsVal.str "e") (JsVal.str "") (JsVal.str "u") 0).2.1
        ≠ LockResult.denied "Invalid lock request" ∧
    (lockSeat [] (JsVal.str "e") (JsVal.str "") (JsVal.str "u") 0).1
        ≠ ([] : LockTable) ∧
    (lockSeat [] (JsVal.str "e") (JsVal.str "") (JsVal.str "u") 0).2.1
        = LockResult.granted := by decide

/-- Claim C5 (amended): for every `lockSeat` request in which `eventId`
is falsy (missing or empty), `seatIndex` is strictly `undefined`, or
`claimantId` is falsy, the result is a denial with reason
"Invalid lock request" sent only to the requester, with no change to the
lock table and no broadcast. -/
theorem lockSeat_invalid_denied (tbl : LockTable) (e si u : JsVal) (now : Int)
    (h : e.truthy = false ∨ si = JsVal.undef ∨ u.truthy = false) :
    lockSeat tbl e si u now
      = (tbl, LockResult.denied "Invalid lock request",
          [Msg.seatLockFailedUnicast si "Invalid lock request"]) := by
  unfold lockSeat
  rcases h with h | h | h <;> simp [h]

/-- Closed instance of the amended C5: a request with `seatIndex`
missing (`undefined`) is denied as invalid and changes nothing. -/
theorem lockSeat_invalid_denied_witness :
    lockSeat [("E1", [("3", ⟨JsVal.str "A", 0⟩)])]
        (JsVal.str "E1") JsVal.undef (JsVal.str "B") 60000
      = ([("E1", [("3", ⟨JsVal.str "A", 0⟩)])],
          LockResult.denied "Invalid lock request",
          [Msg.seatLockFailedUnicast JsVal.undef "Invalid lock request"]) :=
  lockSeat_invalid_denied [("E1", [("3", ⟨JsVal.str "A", 0⟩)])]
    (JsVal.str "E1") JsVal.undef (JsVal.str "B") 60000 (Or.inr (Or.inl rfl))

/-- Claim C8 counterexample: when an internal fault occurs during
`joinEvent` (modelled by `raise = true`), the handler does NOT emit an
empty mapping to the joining connection — the `catch` block only records
a diagnostic, so no `lockedSeats` reply of any kind is sent. -/
theorem joinEvent_fault_no_reply_counterexample :
    Msg.lockedSeatsUnicast []
        ∉ (joinEvent [("E1", [("7", ⟨JsVal.str "A", 0⟩)])]
            (JsVal.str "E1") 0 true).2 ∧
    (joinEvent [("E1", [("7", ⟨JsVal.str "A", 0⟩)])] (JsVal.str "E1") 0 true).2
        = [Msg.diagnostic "joinEvent Error"] := by decide

/-- Claim C8 (amended): `joinEvent` never propagates an exception to the
caller: an internal fault is caught at the handler boundary, a
diagnostic is recorded, the lock table is left unchanged, and nothing is
emitted to the joining connection (no snapshot reply, not even an empty
mapping). -/
theorem joinEvent_fault_contained (tbl : LockTable) (e : JsVal) (now : Int) :
    joinEvent tbl e now true = (tbl, [Msg.diagnostic "joinEvent Error"]) := by
  simp [joinEvent]

/-- Helper: a valid `lockSeat` request on a seat with no active lock
(entry absent, or present but expired) takes the acquisition branch:
result granted, exactly one `seatLocked` broadcast to the event's topic,
and the new record `{claimantId, now}` stored under the seat key. -/
theorem lockSeat_no_active_aux (tbl : LockTable) (e : String) (si u : JsVal)
    (now : Int) (he : e ≠ "") (hsi : si ≠ JsVal.undef) (hu : u.truthy = true)
    (hfree : ∀ l, getKey si.toKey ((getKey e tbl).getD []) = some l →
        now - l.timestamp > LOCK_EXPIRY_TIME) :
    (lockSeat tbl (JsVal.str e) si u now).2.1 = LockResult.granted ∧
    (lockSeat tbl (JsVal.str e) si u now).2.2
      = [Msg.seatLockedBroadcast (topic e) si u] ∧
    getKey si.toKey ((getKey e (lockSeat tbl (JsVal.str e) si u now).1).getD [])
      = some ⟨u, now⟩ := by
  have htr : (JsVal.str e).truthy = true := by simp [JsVal.truthy, he]
  have hsu : (si == JsVal.undef) = false := by
    cases si <;> simp_all
  have hek : (JsVal.str e).toKey = e := rfl
  rcases hcase : getKey e tbl with _ | ev
  · have hres : lockSeat tbl (JsVal.str e) si u now
        = (setKey e (setKey si.toKey ⟨u, now⟩ []) (setKey e [] tbl),
            LockResult.granted, [Msg.seatLockedBroadcast (topic e) si u]) := by
      simp [lockSeat, htr, hu, hsu, hek, hcase, getKey_setKey_self, getKey]
    rw [hres]
    refine ⟨rfl, rfl, ?_⟩
    simp [getKey_setKey_self]
  · rcases hseat : getKey si.toKey ev with _ | l
    · have hres : lockSeat tbl (JsVal.str e) si u now
          = (setKey e (setKey si.toKey ⟨u, now⟩ ev) tbl,
              LockResult.granted, [Msg.seatLockedBroadcast (topic e) si u]) := by
        simp [lockSeat, htr, hu, hsu, hek, hcase, hseat]
      rw [hres]
      refine ⟨rfl, rfl, ?_⟩
      simp [getKey_setKey_self]
    · have hexp : now - l.timestamp > LOCK_EXPIRY_TIME := by
        apply hfree
        rw [hcase, Option.getD_some, hseat]
      have hexp2 : ¬ now ≤ LOCK_EXPIRY_TIME + l.timestamp := by omega
      have hres : lockSeat tbl (JsVal.str e) si u now
          = (setKey e (setKey si.toKey ⟨u, now⟩ ev) tbl,
              LockResult.granted, [Msg.seatLockedBroadcast (topic e) si u]) := by
        simp [lockSeat, htr, hu, hsu, hek, hcase, hseat, hexp2]
      rw [hres]
      refine ⟨rfl, rfl, ?_⟩
      simp [getKey_setKey_self]

/-- Claim C3: a valid `lockSeat` request on a seat with no active lock —
the entry is absent, or the existing lock is expired
(now - acquiredAt > `LOCK_EXPIRY_TIME`) regardless of its previous
claimant — stores the new lock `{claimantId, now}`, returns granted, and
sends exactly one `seatLocked{seatIndex, claimantId}` broadcast to the
event's topic. -/
theorem lockSeat_no_active_granted (tbl : LockTable) (e : String) (si u : JsVal)
    (now : Int) (he : e ≠ "") (hsi : si ≠ JsVal.undef) (hu : u.truthy = true)
    (hfree : ∀ l, getKey si.toKey ((getKey e tbl).getD []) = some l →
        now - l.timestamp > LOCK_EXPIRY_TIME) :
    (lockSeat tbl (JsVal.str e) si u now).2.1 = LockResult.granted ∧
    (lockSeat tbl (JsVal.str e) si u now).2.2
      = [Msg.seatLockedBroadcast (topic e) si u] ∧
    getKey si.toKey ((getKey e (lockSeat tbl (JsVal.str e) si u now).1).getD [])
      = some ⟨u, now⟩ :=
  lockSeat_no_active_aux tbl e si u now he hsi hu hfree

/-- Closed instance of C3: claimant "B" takes over seat "1" of event
"e" whose previous lock by "A" expired (301 s old against the 300 s
TTL). -/
theorem lockSeat_no_active_granted_witness :
    (lockSeat [("e", [("1", ⟨JsVal.str "A", 0⟩)])]
        (JsVal.str "e") (JsVal.str "1") (JsVal.str "B") 300001).2.1
      = LockResult.granted ∧
    (lockSeat [("e", [("1", ⟨JsVal.str "A", 0⟩)])]
        (JsVal.str "e") (JsVal.str "1") (JsVal.str "B") 300001).2.2
      = [Msg.seatLockedBroadcast (topic "e") (JsVal.str "1") (JsVal.str "B")] ∧
    getKey "1" ((getKey "e" (lockSeat [("e", [("1", ⟨JsVal.str "A", 0⟩)])]
        (JsVal.str "e") (JsVal.str "1") (JsVal.str "B") 300001).1).getD [])
      = some ⟨JsVal.str "B", 300001⟩ :=
  lockSeat_no_active_granted [("e", [("1", ⟨JsVal.str "A", 0⟩)])] "e"
    (JsVal.str "1") (JsVal.str "B") 300001 (by decide) (by decide) (by decide)
    (by decide)

/-- Claim C4: a second `lockSeat` by the active holder `u` at a time
`now` still within the TTL of the stored timestamp `T` returns granted,
rewrites the record to `{u, now}` (claimant unchanged, `acquiredAt`
updated), emits nothing (no broadcast, no unicast), leaves every other
seat key of the event untouched, and is idempotent on the whole lock
table when `now = T`. -/
theorem lockSeat_renewal (tbl : LockTable) (ev : EventLocks) (e sk : String)
    (u : JsVal) (T now : Int)
    (he : e ≠ "") (hu : u.truthy = true)
    (hev : getKey e tbl = some ev) (hsk : getKey sk ev = some ⟨u, T⟩)
    (hact : now - T ≤ LOCK_EXPIRY_TIME) :
    lockSeat tbl (JsVal.str e) (JsVal.str sk) u now
      = (setKey e (setKey sk ⟨u, now⟩ ev) tbl, LockResult.granted, []) ∧
    getKey sk (setKey sk (⟨u, now⟩ : SeatLock) ev) = some ⟨u, now⟩ ∧
    (∀ sk2, sk2 ≠ sk →
      getKey sk2 (setKey sk (⟨u, now⟩ : SeatLock) ev) = getKey sk2 ev) ∧
    (now = T → setKey e (setKey sk (⟨u, now⟩ : SeatLock) ev) tbl = tbl) := by
  have htr : (JsVal.str e).truthy = true := by simp [JsVal.truthy, he]
  have hsu : ((JsVal.str sk) == JsVal.undef) = false := rfl
  have hact2 : now ≤ LOCK_EXPIRY_TIME + T := by omega
  refine ⟨?_, getKey_setKey_self sk ⟨u, now⟩ ev, ?_, ?_⟩
  · simp [lockSeat, JsVal.toKey, htr, hu, hsu, hev, hsk, hact2]
  · intro sk2 h2
    exact getKey_setKey_ne sk sk2 ⟨u, now⟩ h2 ev
  · intro hT
    subst hT
    rw [setKey_eq_of_getKey sk ⟨u, now⟩ ev hsk, setKey_eq_of_getKey e ev tbl hev]

/-- Closed instance of C4: the holder "A" renews seat "3" of event "E1"
at t = 60000; the timestamp advances, no message is emitted, and
renewing again at the stored timestamp leaves the table unchanged. -/
theorem lockSeat_renewal_witness :
    lockSeat [("E1", [("3", ⟨JsVal.str "A", 0⟩)])]
        (JsVal.str "E1") (JsVal.str "3") (JsVal.str "A") 60000
      = (setKey "E1" (setKey "3" ⟨JsVal.str "A", 60000⟩
            [("3", ⟨JsVal.str "A", 0⟩)]) [("E1", [("3", ⟨JsVal.str "A", 0⟩)])],
          LockResult.granted, []) ∧
    getKey "3" (setKey "3" (⟨JsVal.str "A", 60000⟩ : SeatLock)
        [("3", ⟨JsVal.str "A", 0⟩)]) = some ⟨JsVal.str "A", 60000⟩ ∧
    (∀ sk2, sk2 ≠ "3" →
      getKey sk2 (setKey "3" (⟨JsVal.str "A", 60000⟩ : SeatLock)
        [("3", ⟨JsVal.str "A", 0⟩)]) = getKey sk2 [("3", ⟨JsVal.str "A", 0⟩)]) ∧
    ((60000 : Int) = 0 → setKey "E1" (setKey "3" (⟨JsVal.str "A", 60000⟩ : SeatLock)
        [("3", ⟨JsVal.str "A", 0⟩)]) [("E1", [("3", ⟨JsVal.str "A", 0⟩)])]
      = [("E1", [("3", ⟨JsVal.str "A", 0⟩)])]) :=
  lockSeat_renewal [("E1", [("3", ⟨JsVal.str "A", 0⟩)])]
    [("3", ⟨JsVal.str "A", 0⟩)] "E1" "3" (JsVal.str "A") 0 60000
    (by decide) (by decide) (by decide) (by decide) (by decide)

/-- Claim C10: `lockSeat` validation rejects `seatIndex` only when it is
strictly `undefined`: a request with truthy `eventId` and `claimantId`
and `seatIndex` equal to the empty string or the number 0 on a seat with
no active lock passes validation, is granted, and creates a lock under
that seat's property key. -/
theorem lockSeat_falsy_seatIndex_granted (tbl : LockTable) (e : String)
    (si u : JsVal) (now : Int)
    (he : e ≠ "") (hu : u.truthy = true)
    (hsi : si = JsVal.str "" ∨ si = JsVal.num 0)
    (hfree : ∀ l, getKey si.toKey ((getKey e tbl).getD []) = some l →
        now - l.timestamp > LOCK_EXPIRY_TIME) :
    (lockSeat tbl (JsVal.str e) si u now).2.1 = LockResult.granted ∧
    getKey si.toKey ((getKey e (lockSeat tbl (JsVal.str e) si u now).1).getD [])
      = some ⟨u, now⟩ := by
  have hsi2 : si ≠ JsVal.undef := by rcases hsi with h | h <;> simp [h]
  have h := lockSeat_no_active_aux tbl e si u now he hsi2 hu hfree
  exact ⟨h.1, h.2.2⟩

/-- Closed instance of C10: with `eventId = "e"`, `claimantId = "u"` and
`seatIndex = ""` on an empty table, the request is granted and the lock
is stored under the key `""`. -/
theorem lockSeat_falsy_seatIndex_granted_witness :
    (lockSeat [] (JsVal.str "e") (JsVal.str "") (JsVal.str "u") 0).2.1
      = LockResult.granted ∧
    getKey (JsVal.str "").toKey ((getKey "e"
        (lockSeat [] (JsVal.str "e") (JsVal.str "") (JsVal.str "u") 0).1).getD [])
      = some ⟨JsVal.str "u", 0⟩ :=
  lockSeat_falsy_seatIndex_granted [] "e" (JsVal.str "") (JsVal.str "u") 0
    (by decide) (by decide) (Or.inl rfl) (by decide)

/-- Claim C2: for a lock acquired or last renewed at time `T`, the
`joinEvent` reply computed at time `T + d` maps the seat to its claimant
when `d ≤ LOCK_EXPIRY_TIME` (the boundary counts as active) and omits
the seat when `d > LOCK_EXPIRY_TIME`, for every table state that still
physically holds the entry (in particular states the sweeper has not yet
cleaned). -/
theorem joinEvent_snapshot_ttl (tbl : LockTable) (ev : EventLocks) (e : JsVal)
    (sk : String) (u : JsVal) (T d : Int)
    (hev : getKey e.toKey tbl = some ev)
    (hnd : (ev.map Prod.fst).Nodup)
    (hsk : getKey sk ev = some ⟨u, T⟩) :
    (joinEvent tbl e (T + d) false).2
      = [Msg.lockedSeatsUnicast (snapshotActive tbl e (T + d))] ∧
    getKey sk (snapshotActive tbl e (T + d))
      = if d ≤ LOCK_EXPIRY_TIME then some u else none := by
  constructor
  · simp [joinEvent]
  · unfold snapshotActive
    rw [hev]
    rw [getKey_map_snd SeatLock.userId sk]
    rw [getKey_filter_some _ sk ⟨u, T⟩ ev hnd hsk]
    by_cases hd : d ≤ LOCK_EXPIRY_TIME
    · have h1 : T + d - (⟨u, T⟩ : SeatLock).timestamp ≤ LOCK_EXPIRY_TIME := by
        simp only [SeatLock.timestamp]
        omega
      simp [h1, hd]
    · have h1 : ¬ (T + d - (⟨u, T⟩ : SeatLock).timestamp ≤ LOCK_EXPIRY_TIME) := by
        simp only [SeatLock.timestamp]
        omega
      simp [h1, hd]

/-- Closed instance of C2: the spec's late-join scenario — a lock on
seat "7" taken at t = 0 and never renewed is absent from the snapshot of
a `joinEvent` arriving at t = 300001 (TTL = 300000). -/
theorem joinEvent_snapshot_ttl_witness :
    (joinEvent [("E1", [("7", ⟨JsVal.str "A", 0⟩)])] (JsVal.str "E1")
        (0 + 300001) false).2
      = [Msg.lockedSeatsUnicast (snapshotActive
          [("E1", [("7", ⟨JsVal.str "A", 0⟩)])] (JsVal.str "E1") (0 + 300001))] ∧
    getKey "7" (snapshotActive [("E1", [("7", ⟨JsVal.str "A", 0⟩)])]
        (JsVal.str "E1") (0 + 300001))
      = if (300001 : Int) ≤ LOCK_EXPIRY_TIME then some (JsVal.str "A") else none :=
  joinEvent_snapshot_ttl [("E1", [("7", ⟨JsVal.str "A", 0⟩)])]
    [("7", ⟨JsVal.str "A", 0⟩)] (JsVal.str "E1") "7" (JsVal.str "A") 0 300001
    (by decide) (by decide) (by decide)

/-- Claim C6: `unlockSeat` policy.  If no entry exists at
(eventId, seatIndex) the call is a no-op with no message.  If an entry
exists and the caller's claimant is falsy, or strictly equals the
holder's, or the lock is expired at call time, the entry is removed and
`seatUnlocked{seatIndex}` is broadcast to the event's topic.  If the
entry is active and held by a different truthy claimant, the table and
the message list are untouched. -/
theorem unlockSeat_policy (tbl : LockTable) (e si u : JsVal) (now : Int) :
    (getKey si.toKey ((getKey e.toKey tbl).getD []) = none →
        unlockSeat tbl e si u now = (tbl, [])) ∧
    (∀ lock, getKey si.toKey ((getKey e.toKey tbl).getD []) = some lock →
        (u.truthy = false ∨ lock.userId = u
          ∨ now - lock.timestamp > LOCK_EXPIRY_TIME) →
        getKey si.toKey ((getKey e.toKey (unlockSeat tbl e si u now).1).getD [])
            = none ∧
        (unlockSeat tbl e si u now).2
            = [Msg.seatUnlockedBroadcast (topic e.toKey) si]) ∧
    (∀ lock, getKey si.toKey ((getKey e.toKey tbl).getD []) = some lock →
        u.truthy = true → lock.userId ≠ u →
        now - lock.timestamp ≤ LOCK_EXPIRY_TIME →
        unlockSeat tbl e si u now = (tbl, [])) := by
  refine ⟨?_, ?_, ?_⟩
  · intro h
    rcases hcase : getKey e.toKey tbl with _ | ev
    · simp [unlockSeat, hcase]
    · rw [hcase, Option.getD_some] at h
      simp [unlockSeat, hcase, h]
  · intro lock hlock hcond
    rcases hcase : getKey e.toKey tbl with _ | ev
    · rw [hcase] at hlock
      simp [getKey] at hlock
    · rw [hcase, Option.getD_some] at hlock
      have hbool : (!u.truthy || lock.userId == u
          || decide (now - lock.timestamp > LOCK_EXPIRY_TIME)) = true := by
        rcases hcond with h | h | h <;> simp [h]
      have hres : unlockSeat tbl e si u now
          = (setKey e.toKey (removeKey si.toKey ev) tbl,
              [Msg.seatUnlockedBroadcast (topic e.toKey) si]) := by
        simp only [unlockSeat, hcase, hlock]
        rw [if_pos (by simp_all)]
      rw [hres]
      refine ⟨?_, rfl⟩
      rw [getKey_setKey_self, Option.getD_some, getKey_removeKey_self]
  · intro lock hlock hu hne hle
    rcases hcase : getKey e.toKey tbl with _ | ev
    · rw [hcase] at hlock
      simp [getKey] at hlock
    · rw [hcase, Option.getD_some] at hlock
      have h1 : (!u.truthy) = false := by simp [hu]
      have h2 : (lock.userId == u) = false := by simp [hne]
      have h3 : (decide (now - lock.timestamp > LOCK_EXPIRY_TIME)) = false := by
        simp
        omega
      simp only [unlockSeat, hcase, hlock]
      rw [if_neg (by simp [h1, h2, h3])]

/-- Closed instance of C6: the holder "A" releases seat "3" of event
"E1"; the entry disappears and `seatUnlocked` is broadcast. -/
theorem unlockSeat_policy_witness :
    getKey (JsVal.str "3").toKey ((getKey (JsVal.str "E1").toKey
        (unlockSeat [("E1", [("3", ⟨JsVal.str "A", 0⟩)])] (JsVal.str "E1")
          (JsVal.str "3") (JsVal.str "A") 90000).1).getD []) = none ∧
    (unlockSeat [("E1", [("3", ⟨JsVal.str "A", 0⟩)])] (JsVal.str "E1")
        (JsVal.str "3") (JsVal.str "A") 90000).2
      = [Msg.seatUnlockedBroadcast (topic (JsVal.str "E1").toKey)
          (JsVal.str "3")] :=
  (unlockSeat_policy [("E1", [("3", ⟨JsVal.str "A", 0⟩)])] (JsVal.str "E1")
      (JsVal.str "3") (JsVal.str "A") 90000).2.1
    ⟨JsVal.str "A", 0⟩ (by decide) (Or.inr (Or.inl rfl))

/-- Helper: within one event, the sweeper's broadcast list contains the
`seatUnlocked` message for seat `sk` once if the event's (unique) entry
at `sk` is expired, and not at all otherwise. -/
theorem count_sweepEventMsgs (S : Int) (ek sk : String) :
    ∀ ev : EventLocks, (ev.map Prod.fst).Nodup →
      ((sweepEventMsgs S ek ev).count
          (Msg.seatUnlockedBroadcast (topic ek) (JsVal.str sk)))
        = (match getKey sk ev with
           | some l => if S - l.timestamp > LOCK_EXPIRY_TIME then 1 else 0
           | none => 0)
  | [] => by
      intro _
      simp [sweepEventMsgs, getKey]
  | (k, v) :: rest => by
      intro hnd
      simp only [List.map_cons, List.nodup_cons] at hnd
      have ih := count_sweepEventMsgs S ek sk rest hnd.2
      by_cases hx : S - v.timestamp > LOCK_EXPIRY_TIME
      · have hfc : sweepEventMsgs S ek ((k, v) :: rest)
            = Msg.seatUnlockedBroadcast (topic ek) (JsVal.str k)
                :: sweepEventMsgs S ek rest := by
          simp [sweepEventMsgs, List.filter_cons, hx]
        rw [hfc]
        by_cases hk : k = sk
        · subst hk
          have hrest : getKey k rest = none :=
            getKey_eq_none_of_not_mem k rest hnd.1
          rw [List.count_cons]
          simp [ih, hrest, getKey, hx]
        · rw [List.count_cons]
          have hne : (Msg.seatUnlockedBroadcast (topic ek) (JsVal.str sk))
              ≠ (Msg.seatUnlockedBroadcast (topic ek) (JsVal.str k)) := by
            intro hcontra
            apply hk
            injection hcontra with _ h2
            injection h2 with h3
            exact h3.symm
          simp only [getKey, if_neg hk]
          simp [ih, hne, hk]
      · have hfc : sweepEventMsgs S ek ((k, v) :: rest)
            = sweepEventMsgs S ek rest := by
          simp [sweepEventMsgs, List.filter_cons, hx]
        rw [hfc, ih]
        by_cases hk : k = sk
        · subst hk
          have hrest : getKey k rest = none :=
            getKey_eq_none_of_not_mem k rest hnd.1
          simp [hrest, getKey, hx]
        · simp only [getKey, if_neg hk]

/-- Helper: the sweeper's broadcasts for one event never mention another
event's topic. -/
theorem count_sweepEventMsgs_ne (S : Int) (ek ek2 sk : String)
    (ev : EventLocks) (h : ek ≠ ek2) :
    (sweepEventMsgs S ek ev).count
        (Msg.seatUnlockedBroadcast (topic ek2) (JsVal.str sk)) = 0 := by
  rw [List.count_eq_zero]
  intro hmem
  simp only [sweepEventMsgs, List.mem_map] at hmem
  obtain ⟨p, _, heq⟩ := hmem
  injection heq with h1 _
  exact h (topic_inj h1)

/-- Helper: events whose key is not in the table contribute no sweeper
broadcast. -/
theorem count_sweep_msgs_zero (S : Int) (ek sk : String) :
    ∀ tbl : LockTable, ek ∉ tbl.map Prod.fst →
      ((sweep tbl S).2.count
          (Msg.seatUnlockedBroadcast (topic ek) (JsVal.str sk))) = 0
  | [] => by
      intro _
      simp [sweep]
  | (k, ev) :: rest => by
      intro h
      simp only [List.map_cons, List.mem_cons] at h
      push_neg at h
      have hsplit : (sweep ((k, ev) :: rest) S).2
          = sweepEventMsgs S k ev ++ (sweep rest S).2 := by
        simp [sweep]
      rw [hsplit, List.count_append,
        count_sweepEventMsgs_ne S k ek sk ev (fun hh => h.1 hh.symm),
        count_sweep_msgs_zero S ek sk rest h.2]

/-- Helper: exact characterization of the sweeper's broadcast
multiplicities over a well-formed table. -/
theorem count_sweep_msgs (S : Int) (ek sk : String) :
    ∀ tbl : LockTable, TableWF tbl →
      ((sweep tbl S).2.count
          (Msg.seatUnlockedBroadcast (topic ek) (JsVal.str sk)))
        = (match getKey sk ((getKey ek tbl).getD []) with
           | some l => if S - l.timestamp > LOCK_EXPIRY_TIME then 1 else 0
           | none => 0)
  | [] => by
      intro _
      simp [sweep, getKey]
  | (k, ev) :: rest => by
      intro hwf
      obtain ⟨hnd, hin⟩ := hwf
      simp only [List.map_cons, List.nodup_cons] at hnd
      have hwfrest : TableWF rest :=
        ⟨hnd.2, fun p hp => hin p (List.mem_cons_of_mem _ hp)⟩
      have hndev : (ev.map Prod.fst).Nodup := hin (k, ev) (List.mem_cons_self _ _)
      have hsplit : (sweep ((k, ev) :: rest) S).2
          = sweepEventMsgs S k ev ++ (sweep rest S).2 := by
        simp [sweep]
      rw [hsplit, List.count_append]
      by_cases hk : k = ek
      · subst hk
        rw [count_sweepEventMsgs S k sk ev hndev,
          count_sweep_msgs_zero S k sk rest hnd.1]
        simp [getKey]
      · rw [count_sweepEventMsgs_ne S k ek sk ev hk,
          count_sweep_msgs S ek sk rest hwfrest]
        simp [getKey, hk]

/-- Claim C7: a sweep tick at time `S` over a well-formed table removes
exactly the locks with `S - acquiredAt > LOCK_EXPIRY_TIME`, leaves every
other lock record untouched (claimant and timestamp alike), and emits
exactly one `seatUnlocked{seatIndex}` broadcast to the owning event's
topic per removed seat and none for a kept or absent seat. -/
theorem sweep_spec (tbl : LockTable) (S : Int) (hwf : TableWF tbl) :
    (∀ ek sk u T, getKey sk ((getKey ek tbl).getD []) = some ⟨u, T⟩ →
        getKey sk ((getKey ek (sweep tbl S).1).getD [])
          = if S - T > LOCK_EXPIRY_TIME then none else some ⟨u, T⟩) ∧
    (∀ ek sk,
        ((sweep tbl S).2.count
            (Msg.seatUnlockedBroadcast (topic ek) (JsVal.str sk)))
          = (match getKey sk ((getKey ek tbl).getD []) with
             | some l => if S - l.timestamp > LOCK_EXPIRY_TIME then 1 else 0
             | none => 0)) := by
  constructor
  · intro ek sk u T h
    rcases hcase : getKey ek tbl with _ | ev
    · rw [hcase] at h
      simp [getKey] at h
    · rw [hcase, Option.getD_some] at h
      have hndev : (ev.map Prod.fst).Nodup := (hwf.2 (ek, ev)) (mem_of_getKey ek ev tbl hcase)
      have hmap : getKey ek (sweep tbl S).1 = some (sweepEvent S ev) := by
        show getKey ek (tbl.map (fun p => (p.1, sweepEvent S p.2)))
            = some (sweepEvent S ev)
        rw [getKey_map_snd (sweepEvent S) ek tbl, hcase, Option.map_some']
      rw [hmap, Option.getD_some]
      unfold sweepEvent
      rw [getKey_filter_some _ sk ⟨u, T⟩ ev hndev h]
      by_cases hx : S - T > LOCK_EXPIRY_TIME
      · have : (!decide (S - (⟨u, T⟩ : SeatLock).timestamp > LOCK_EXPIRY_TIME))
            = false := by simp [hx]
        simp [this, hx]
      · have : (!decide (S - (⟨u, T⟩ : SeatLock).timestamp > LOCK_EXPIRY_TIME))
            = true := by simp [hx]
        simp [this, hx]
  · intro ek sk
    exact count_sweep_msgs S ek sk tbl hwf

/-- Closed instance of C7: sweeping
`[("E1", [("3", A@0), ("4", B@200000)])]` at S = 300001 removes seat "3"
(expired), keeps seat "4", and broadcasts `seatUnlocked` for "3" exactly
once. -/
theorem sweep_spec_witness :
    getKey "3" ((getKey "E1" (sweep
        [("E1", [("3", ⟨JsVal.str "A", 0⟩), ("4", ⟨JsVal.str "B", 200000⟩)])]
        300001).1).getD [])
      = (if (300001 : Int) - 0 > LOCK_EXPIRY_TIME then none
         else some (⟨JsVal.str "A", 0⟩ : SeatLock)) ∧
    ((sweep [("E1", [("3", ⟨JsVal.str "A", 0⟩), ("4", ⟨JsVal.str "B", 200000⟩)])]
        300001).2.count
        (Msg.seatUnlockedBroadcast (topic "E1") (JsVal.str "3")))
      = (match getKey "3" ((getKey "E1"
            ([("E1", [("3", ⟨JsVal.str "A", 0⟩), ("4", ⟨JsVal.str "B", 200000⟩)])] :
              LockTable)).getD []) with
         | some l => if (300001 : Int) - l.timestamp > LOCK_EXPIRY_TIME then 1 else 0
         | none => 0) :=
  ⟨(sweep_spec [("E1", [("3", ⟨JsVal.str "A", 0⟩), ("4", ⟨JsVal.str "B", 200000⟩)])]
      300001 (by decide)).1 "E1" "3" (JsVal.str "A") 0 (by decide),
   (sweep_spec [("E1", [("3", ⟨JsVal.str "A", 0⟩), ("4", ⟨JsVal.str "B", 200000⟩)])]
      300001 (by decide)).2 "E1" "3"⟩

/-- Claim C9: computing the `joinEvent` snapshot leaves the lock table
unchanged — for every event and seat key, the stored lock record (its
claimant and timestamp alike, expired or not) is identical before and
after the handler runs, on the normal path and the fault path. -/
theorem joinEvent_preserves_table (tbl : LockTable) (e : JsVal) (now : Int)
    (raise : Bool) (ek sk : String) :
    (joinEvent tbl e now raise).1 = tbl ∧
    getKey sk ((getKey ek (joinEvent tbl e now raise).1).getD [])
      = getKey sk ((getKey ek tbl).getD []) := by
  cases raise <;> simp [joinEvent]

end GravitServer
